import Mathlib

/-!
Verification development for a user-account service (Express + MySQL).
The controllers of `controllers/userController.js`, the auth middleware
of `middleware/authMiddleware.js` and the SQL they issue are shallowly
embedded as pure Lean functions over an explicit store state; every
transaction is modelled by threading the visible store and a `committed`
flag through each operation.
-/

namespace TaskApp

/-! ## JavaScript primitive semantics used by the controllers -/

/-- JS truthiness of a possibly-missing string (`!body[field]`): `undefined`
and the empty string are falsy. -/
def isTruthy : Option String → Bool
  | none => false
  | some s => s ≠ ""

/-- JS `x || default` for a possibly-missing string. -/
def jsOrStr (o : Option String) (d : String) : String :=
  match o with
  | none => d
  | some s => if s = "" then d else s

/-- JS `x || null` for a possibly-missing string (used for optional columns). -/
def jsOrNull : Option String → Option String
  | none => none
  | some s => if s = "" then none else some s

/-- JS `String.prototype.toLowerCase` restricted to the ASCII range. -/
def jsToLower (s : String) : String := String.mk (s.data.map Char.toLower)

/-- JS `String.prototype.toUpperCase` restricted to the ASCII range. -/
def jsToUpper (s : String) : String := String.mk (s.data.map Char.toUpper)

/-- Character-list version of "first list is an initial segment of second". -/
def leadsWith : List Char → List Char → Bool
  | [], _ => true
  | _ :: _, [] => false
  | a :: as, b :: bs => a = b && leadsWith as bs

/-- JS `String.prototype.startsWith`. -/
def jsStartsWith (s pat : String) : Bool := leadsWith pat.data s.data

/-- Helper for JS `split(' ')`: walks the characters, cutting at every
single space; empty segments are kept, as JS does. -/
def splitSpAux : List Char → List Char → List String
  | [], acc => [String.mk acc.reverse]
  | c :: cs, acc =>
    if c = ' ' then String.mk acc.reverse :: splitSpAux cs []
    else splitSpAux cs (c :: acc)

/-- JS `String.prototype.split(' ')`. -/
def jsSplitSpace (s : String) : List String := splitSpAux s.data []

/-- Numeric value of a (reversed-significance) list of decimal digits,
most significant first. -/
def digitsVal (ds : List Char) : Nat :=
  ds.foldl (fun acc c => 10 * acc + (c.toNat - 48)) 0

/-- Maximal leading run of decimal digits. -/
def takeDigits : List Char → List Char
  | [] => []
  | c :: cs => if c.isDigit then c :: takeDigits cs else []

/-- Leading run of JS whitespace characters removed. -/
def dropWs : List Char → List Char
  | [] => []
  | c :: cs => if c = ' ' ∨ c = '\t' ∨ c = '\n' ∨ c = '\r' then dropWs cs else c :: cs

/-- JS `parseInt(s, 10)`: skip leading whitespace, optional sign, then the
maximal run of decimal digits; `none` models `NaN` (no digits found). -/
def jsParseInt10 (s : String) : Option Int :=
  let cs := dropWs s.data
  let neg : Bool := cs.head? = some '-'
  let body := if cs.head? = some '-' ∨ cs.head? = some '+' then cs.tail else cs
  let ds := takeDigits body
  if ds = [] then none
  else if neg then some (-(digitsVal ds : Int)) else some (digitsVal ds : Int)

/-- A character the email regex `[^\s@]+` accepts: not whitespace, not `@`. -/
def okChar (c : Char) : Bool := ¬ c.isWhitespace ∧ c ≠ '@'

/-- Split a character list at the first occurrence of `c`, if any. -/
def splitAtFirst (c : Char) : List Char → Option (List Char × List Char)
  | [] => none
  | x :: xs =>
    if x = c then some ([], xs)
    else (splitAtFirst c xs).map (fun p => (x :: p.1, p.2))

/-- The part after `@` must factor as `[^\s@]+ "." [^\s@]+`: some dot has at
least one character before it and at least one after it. -/
def hasInnerDot (r : List Char) : Bool := ((r.drop 1).dropLast).contains '.'

/-- The email shape test of `validateEmailFormat`
(regex `^[^\s@]+@[^\s@]+\.[^\s@]+$`). -/
def validEmail (s : String) : Bool :=
  match splitAtFirst '@' s.data with
  | none => false
  | some (l, r) => l ≠ [] && l.all okChar && r.all okChar && hasInnerDot r

/-! ## External capabilities (hashing, tokens)

The spec treats these as opaque capabilities (`hash`/`verify`,
`sign`/`verify`); the concrete digest format below is a model of that
interface, injective in the password as an ideal hash. -/

/-- Modelled from the spec: the password-hashing capability
`hash(secret) -> digest` (`bcrypt.hash` in the source). -/
def bcryptHash (p : String) : String := "bc$" ++ p

/-- Modelled from the spec: the verification capability
`verify(secret, digest) -> bool` (`bcrypt.compare` in the source). -/
def bcryptCompare (p h : String) : Bool := h == bcryptHash p

/-- Claims carried by a signed bearer token (`{userId, email}` plus expiry). -/
structure Token where
  userId : Nat
  email : String
  exp : Nat
deriving DecidableEq

/-- Modelled from the spec: the token-signing capability
(`jwt.sign(payload, secret, {expiresIn})`); `exp = now + ttl`. -/
def jwtSign (userId : Nat) (email : String) (now ttl : Nat) : Token :=
  ⟨userId, email, now + ttl⟩

/-- The claims `jwt.verify` yields on success. -/
structure Claims where
  userId : Nat
  email : String
deriving DecidableEq

/-- Outcome of verifying a token string: success, `JsonWebTokenError`
(malformed / signature mismatch), `TokenExpiredError` (carrying the
original expiry timestamp, in seconds), or any other failure. -/
inductive VerifyOutcome where
  | ok (claims : Claims)
  | malformed
  | expired (expiredAt : Nat)
  | otherFailure
deriving DecidableEq

/-- Model of `jwt.verify` applied to the extracted token: JS `split(' ')[1]` can be
`undefined`, which `jwt.verify` rejects as a `JsonWebTokenError`; otherwise
the ambient signed-token environment `env` decides the outcome. -/
def verifyTok (env : String → VerifyOutcome) : Option String → VerifyOutcome
  | none => .malformed
  | some t => env t

/-- Rendering of `new Date(ms)` in a template string; kept injective in the
millisecond value, which is all the proofs use. -/
def renderDate (ms : Nat) : String := "Date(" ++ toString ms ++ ")"

/-! ## Data model: the `users` table and the store state -/

/-- One row of the `users` table. Timestamps are `Nat`s; `last_login_date`
is the one nullable column. -/
structure User where
  id : Nat
  first_name : String
  last_name : String
  email : String
  password_hash : String
  job_title : Option String
  company : Option String
  status : String
  registration_date : Nat
  last_login_date : Option Nat
deriving DecidableEq

/-- The persistent store: the rows plus the `AUTO_INCREMENT` counter. -/
structure Store where
  users : List User
  nextId : Nat
deriving DecidableEq

/-- The projection selected by `fetchAllUsersFromDB` and also the shape of
each row in the dashboard response: every column except `password_hash`. -/
structure UserView where
  id : Nat
  first_name : String
  last_name : String
  email : String
  job_title : Option String
  company : Option String
  last_login_date : Option Nat
  registration_date : Nat
  status : String
deriving DecidableEq

/-- Projection of a row to the non-digest columns. -/
def toView (u : User) : UserView :=
  ⟨u.id, u.first_name, u.last_name, u.email, u.job_title, u.company,
    u.last_login_date, u.registration_date, u.status⟩

/-- The projection `getUserForAuth` selects: `id, email, status`. -/
structure AuthUser where
  id : Nat
  email : String
  status : String
deriving DecidableEq

/-- Embedding of `getUserForAuth`: `SELECT id, email, status FROM users WHERE id = ?`. -/
def getUserForAuth (userId : Nat) (store : Store) : Option AuthUser :=
  (store.users.find? (fun u => u.id = userId)).map
    (fun u => ⟨u.id, u.email, u.status⟩)

/-- Embedding of `findUserByEmailInDB`: exact-match lookup by email (digest included). -/
def findUserByEmailInDB (email : String) (store : Store) : Option User :=
  store.users.find? (fun u => u.email = email)

/-- The `SELECT email FROM users WHERE email = ?` probe of
`checkEmailAvailability`: is the email already taken? -/
def emailTaken (email : String) (store : Store) : Bool :=
  store.users.any (fun u => u.email = email)

/-- Embedding of `insertNewUser`: appends a fresh row (`status` defaults to `active`,
`registration_date` to the current time, `last_login_date` to `NULL`) and
advances the id counter; returns the assigned id. -/
def insertNewUser (first_name last_name email hashedPassword : String)
    (job_title company : Option String) (now : Nat) (store : Store) :
    Nat × Store :=
  let u : User :=
    ⟨store.nextId, first_name, last_name, email, hashedPassword,
      jsOrNull job_title, jsOrNull company, "active", now, none⟩
  (store.nextId, ⟨store.users ++ [u], store.nextId + 1⟩)

/-- Embedding of `updateUserLastLoginDate`: stamps `last_login_date = CURRENT_TIMESTAMP`
on the row with the given id. -/
def updateUserLastLoginDate (userId : Nat) (now : Nat) (store : Store) :
    Store :=
  ⟨store.users.map (fun u =>
      if u.id = userId then { u with last_login_date := some now } else u),
    store.nextId⟩

/-- Semantics of `DELETE FROM users WHERE id IN (?)`: affected row count and new rows. -/
def deleteMultipleUsersFromDB (ids : List Int) (store : Store) :
    Nat × Store :=
  ((store.users.filter (fun u => (u.id : Int) ∈ ids)).length,
    ⟨store.users.filter (fun u => (u.id : Int) ∉ ids), store.nextId⟩)

/-- Semantics of `UPDATE users SET status = ? WHERE id IN (?)`: the driver reports the
matched row count (`FOUND_ROWS` semantics) as `affectedRows`. -/
def updateStatusForMultipleUsersInDB (ids : List Int) (status : String)
    (store : Store) : Nat × Store :=
  ((store.users.filter (fun u => (u.id : Int) ∈ ids)).length,
    ⟨store.users.map (fun u =>
        if (u.id : Int) ∈ ids then { u with status := status } else u),
      store.nextId⟩)

/-! ## Sort policy of `fetchAllUsersFromDB` (the `ORDER BY` clause) -/

/-- Ascending comparison of two numeric column values. -/
def natCmpAsc (a b : Nat) : Ordering :=
  if a < b then .lt else if b < a then .gt else .eq

/-- Ascending binary comparison of two character lists (string collation is
modelled as binary/codepoint order). -/
def charsCmp : List Char → List Char → Ordering
  | [], [] => .eq
  | [], _ :: _ => .lt
  | _ :: _, [] => .gt
  | a :: as, b :: bs =>
    if a.toNat < b.toNat then .lt
    else if b.toNat < a.toNat then .gt
    else charsCmp as bs

/-- Ascending comparison of two string column values. -/
def strCmpAsc (a b : String) : Ordering := charsCmp a.data b.data

/-- Comparison for the `last_login_date IS NULL ASC` key: non-null rows
before null rows. -/
def nullCmp (a b : Option Nat) : Ordering :=
  natCmpAsc (if a.isNone then 1 else 0) (if b.isNone then 1 else 0)

/-- Apply a sort direction to an ascending comparison (`DESC` reverses). -/
def dirn (sortOrder : String) (o : Ordering) : Ordering :=
  if sortOrder = "ASC" then o else o.swap

/-- Ascending comparison on a non-`last_login_date` sort column. -/
def colCmpAsc (col : String) (a b : UserView) : Ordering :=
  if col = "id" then natCmpAsc a.id b.id
  else if col = "first_name" then strCmpAsc a.first_name b.first_name
  else if col = "last_name" then strCmpAsc a.last_name b.last_name
  else if col = "email" then strCmpAsc a.email b.email
  else if col = "registration_date" then
    natCmpAsc a.registration_date b.registration_date
  else strCmpAsc a.status b.status

/-- Row comparison realising the two `ORDER BY` shapes of
`fetchAllUsersFromDB`: for `last_login_date`, `IS NULL ASC` first, then the
value in the requested direction, then `registration_date` in the same
direction; for every other key, the key in the requested direction with
`registration_date DESC` as unconditional tie-break. -/
def rowCmp (sortBy sortOrder : String) (a b : UserView) : Ordering :=
  if sortBy = "last_login_date" then
    (nullCmp a.last_login_date b.last_login_date).then
      ((dirn sortOrder
          (natCmpAsc (a.last_login_date.getD 0) (b.last_login_date.getD 0))).then
        (dirn sortOrder (natCmpAsc a.registration_date b.registration_date)))
  else
    (dirn sortOrder (colCmpAsc sortBy a b)).then
      (natCmpAsc a.registration_date b.registration_date).swap

/-- Non-strict order induced by a comparison. -/
def obLe (o : Ordering) : Bool :=
  match o with
  | .gt => false
  | _ => true

/-- Boolean row order fed to the sort. -/
def rowLe (sortBy sortOrder : String) (a b : UserView) : Bool :=
  obLe (rowCmp sortBy sortOrder a b)

/-- The allow-list of sortable columns. -/
def allowedSortBy : List String :=
  ["id", "first_name", "last_name", "email", "last_login_date",
    "registration_date", "status"]

/-- Resolution of the client's `sortBy` (truthy and allow-listed, else
`last_login_date`). -/
def effectiveSortBy (clientSortBy : String) : String :=
  if clientSortBy ≠ "" ∧ clientSortBy ∈ allowedSortBy then clientSortBy
  else "last_login_date"

/-- Resolution of the client's `sortOrder` (truthy and upper-casing to
`ASC`, else `DESC`). -/
def effectiveSortOrder (clientSortOrder : String) : String :=
  if clientSortOrder ≠ "" ∧ jsToUpper clientSortOrder = "ASC" then "ASC"
  else "DESC"

/-- Embedding of `fetchAllUsersFromDB`: select the non-digest projection of
every row, ordered by the resolved sort specification. -/
def fetchAllUsersFromDB (store : Store) (clientSortBy clientSortOrder : String) :
    List UserView :=
  (store.users.map toView).mergeSort
    (rowLe (effectiveSortBy clientSortBy) (effectiveSortOrder clientSortOrder))

/-! ## Controllers (`controllers/userController.js`) -/

/-- Request body of `POST /api/users/login`; absent fields are `none`. -/
structure LoginBody where
  email : Option String
  password : Option String

/-- Public user projection in the login success response. -/
structure LoginUserOut where
  id : Nat
  first_name : String
  last_name : String
  email : String
deriving DecidableEq

/-- Observable outcome of `loginUser`: HTTP status, `message`, optional
token and user payload, the visible store afterwards, and whether the
transaction committed. -/
structure LoginResult where
  status : Nat
  message : String
  token : Option Token
  user : Option LoginUserOut
  store : Store
  committed : Bool
deriving DecidableEq

/-- Embedding of `loginUser`. Validation failures throw with
`statusCode = 400`, but the catch handler of this controller replies 500
unconditionally (it never reads `error.statusCode`). -/
def loginUser (body : LoginBody) (now ttl : Nat) (store : Store) :
    LoginResult :=
  if ¬ (isTruthy body.email ∧ isTruthy body.password) then
    ⟨500, "An error occurred during login.", none, none, store, false⟩
  else
    let email := body.email.getD ""
    let password := body.password.getD ""
    if ¬ validEmail email then
      ⟨500, "An error occurred during login.", none, none, store, false⟩
    else
      match findUserByEmailInDB email store with
      | none => ⟨401, "Invalid email or password.", none, none, store, false⟩
      | some u =>
        if ¬ bcryptCompare password u.password_hash then
          ⟨401, "Invalid email or password.", none, none, store, false⟩
        else if u.status = "blocked" then
          ⟨403, "Account is blocked. Please contact support.", none, none,
            store, false⟩
        else
          ⟨200, "Login successful!", some (jwtSign u.id u.email now ttl),
            some ⟨u.id, u.first_name, u.last_name, u.email⟩,
            updateUserLastLoginDate u.id now store, true⟩

/-- Stateless acknowledgment of `logoutUser`. -/
structure SimpleResult where
  status : Nat
  message : String
deriving DecidableEq

/-- Embedding of `logoutUser`. -/
def logoutUser : SimpleResult :=
  ⟨200, "Logout successful. DISCARDING PENDING IN FRONT."⟩

/-- Request body of `POST /api/users/register`. -/
structure RegisterBody where
  first_name : Option String
  last_name : Option String
  email : Option String
  password : Option String
  job_title : Option String
  company : Option String

/-- Public user projection in the register success response. -/
structure RegisterUserOut where
  id : Nat
  first_name : String
  last_name : String
  email : String
  job_title : Option String
  company : Option String
deriving DecidableEq

/-- Observable outcome of `registerUser`. -/
structure RegisterResult where
  status : Nat
  message : String
  token : Option Token
  userId : Option Nat
  user : Option RegisterUserOut
  store : Store
  committed : Bool
deriving DecidableEq

/-- Field checks of `ensureRequiredFieldsPresent`, in order: the first
falsy field yields the error. -/
def firstMissing : List (String × Option String) → Option String
  | [] => none
  | (name, v) :: rest => if isTruthy v then firstMissing rest else some name

/-- Embedding of `registerUser`: validate, check email availability, hash,
insert, stamp the initial login time, commit, sign a token. -/
def registerUser (body : RegisterBody) (now ttl : Nat) (store : Store) :
    RegisterResult :=
  match firstMissing
      [("first_name", body.first_name), ("last_name", body.last_name),
        ("email", body.email), ("password", body.password)] with
  | some f =>
    ⟨400, "Please provide " ++ f ++ ".", none, none, none, store, false⟩
  | none =>
    let email := body.email.getD ""
    if ¬ validEmail email then
      ⟨400, "Invalid email format.", none, none, none, store, false⟩
    else if emailTaken email store then
      ⟨409, "Email already registered.", none, none, none, store, false⟩
    else
      let ins := insertNewUser (body.first_name.getD "") (body.last_name.getD "")
        email (bcryptHash (body.password.getD "")) body.job_title body.company
        now store
      ⟨201, "User registered successfully!", some (jwtSign ins.1 email now ttl),
        some ins.1,
        some ⟨ins.1, body.first_name.getD "", body.last_name.getD "", email,
          jsOrNull body.job_title, jsOrNull body.company⟩,
        updateUserLastLoginDate ins.1 now ins.2, true⟩

/-- Observable outcome of `getAllUsers` (read-only, no transaction). -/
structure ListResult where
  status : Nat
  message : String
  count : Nat
  users : List UserView
deriving DecidableEq

/-- Embedding of `getAllUsers`: query-string fallbacks, then the store
query of `fetchAllUsersFromDB`. -/
def getAllUsers (sortBy sortOrder : Option String) (store : Store) :
    ListResult :=
  let users := fetchAllUsersFromDB store (jsOrStr sortBy "last_login_date")
    (jsOrStr sortOrder "DESC")
  ⟨200, "Users retrieved successfully!", users.length, users⟩

/-- Id coercion shared by both bulk operations:
`userIds.map(id => parseInt(id, 10)).filter(id => !isNaN(id) && id > 0)`. -/
def validIdsOf (userIds : List String) : List Int :=
  userIds.filterMap (fun s =>
    match jsParseInt10 s with
    | none => none
    | some n => if 0 < n then some n else none)

/-- Observable outcome of a bulk mutation. -/
structure BulkResult where
  status : Nat
  message : String
  store : Store
  committed : Bool
deriving DecidableEq

/-- Embedding of `updateMultipleUsersStatus`: the transaction commits
before the zero-match check, so a matched-zero update still commits. -/
def updateMultipleUsersStatus (userIds : Option (List String))
    (status : Option String) (store : Store) : BulkResult :=
  match userIds with
  | none => ⟨400, "Please provide a non-empty array of user IDs.", store, false⟩
  | some ids =>
    if ids = [] then
      ⟨400, "Please provide a non-empty array of user IDs.", store, false⟩
    else if ¬ (isTruthy status ∧
        jsToLower (status.getD "") ∈ ["active", "blocked"]) then
      ⟨400, "Invalid status provided. Must be \x27active\x27 or \x27blocked\x27.",
        store, false⟩
    else
      let st := jsToLower (status.getD "")
      let vids := validIdsOf ids
      if vids = [] then
        ⟨400, "No valid user IDs provided for status update.", store, false⟩
      else
        let r := updateStatusForMultipleUsersInDB vids st store
        if r.1 = 0 then
          ⟨404, "No users found matching the provided IDs for status update.",
            r.2, true⟩
        else
          ⟨200, "Successfully updated status to \x27" ++ st ++ "\x27 for " ++
            toString r.1 ++ " user(s).", r.2, true⟩

/-- Embedding of `deleteMultipleUsers`: on a zero-match delete the
controller returns 404 before `commit`, so the transaction never commits
and the store stays as it was. -/
def deleteMultipleUsers (userIds : Option (List String)) (store : Store) :
    BulkResult :=
  match userIds with
  | none => ⟨400, "Please provide an array of user IDs.", store, false⟩
  | some ids =>
    if ids = [] then
      ⟨400, "Please provide an array of user IDs.", store, false⟩
    else
      let vids := validIdsOf ids
      if vids = [] then
        ⟨400, "No valid user IDs provided for deletion.", store, false⟩
      else
        let r := deleteMultipleUsersFromDB vids store
        if r.1 = 0 then
          ⟨404, "No users found matching the provided IDs for deletion, or no valid IDs were provided.",
            store, false⟩
        else
          ⟨200, "Successfully deleted " ++ toString r.1 ++ " user(s).", r.2, true⟩

/-! ## Auth middleware (`middleware/authMiddleware.js`) -/

/-- Outcome of the `protect` middleware: a rejection response, or the
pipeline continues with the loaded user attached to the request. -/
inductive ProtectResult where
  | reject (status : Nat) (message : String)
  | proceed (user : AuthUser)
deriving DecidableEq

/-- Token extraction `req.headers.authorization.split(' ')[1]`. -/
def extractBearerToken (h : String) : Option String := (jsSplitSpace h)[1]?

/-- Embedding of `protect`: scheme probe by `startsWith('Bearer')`, token
extraction, verification, live user load, blocked-status gate. -/
def protect (env : String → VerifyOutcome) (authorization : Option String)
    (store : Store) : ProtectResult :=
  match authorization with
  | none => .reject 401 "Not authorized, no Bearer token provided"
  | some h =>
    if h ≠ "" ∧ jsStartsWith h "Bearer" then
      match verifyTok env (extractBearerToken h) with
      | .malformed =>
        .reject 401 "Not authorized, invalid token (e.g., signature mismatch or malformed)"
      | .expired e =>
        .reject 401 ("Not authorized, token expired at " ++ renderDate (e * 1000))
      | .otherFailure =>
        .reject 401 "Not authorized, token verification process failed"
      | .ok claims =>
        match getUserForAuth claims.userId store with
        | none => .reject 401 "Not authorized, user associated with token not found"
        | some cu =>
          if cu.status = "blocked" then
            .reject 403 "Forbidden: Your account is blocked."
          else .proceed cu
    else .reject 401 "Not authorized, no Bearer token provided"

/-! ## Concrete fixtures used by witnesses -/

/-- Demo row 1: active, never logged in. -/
def demoU1 : User :=
  ⟨1, "Ann", "Lee", "a@b.com", bcryptHash "pw", none, none, "active", 10, none⟩

/-- Demo row 2: active, logged in at 100. -/
def demoU2 : User :=
  ⟨2, "Bob", "Kim", "c@d.com", bcryptHash "pw2", none, none, "active", 20, some 100⟩

/-- Demo row 3: blocked, logged in at 50. -/
def demoU3 : User :=
  ⟨3, "Eve", "Fox", "e@f.com", bcryptHash "pw3", none, none, "blocked", 30, some 50⟩

/-- Demo store holding the three rows. -/
def demoStore : Store := ⟨[demoU1, demoU2, demoU3], 4⟩

/-! ## C2 -/

/-- C2: account-enumeration resistance of login. For every login request
that passes validation, both the unknown-email case and the
wrong-password case produce the very same response record: status 401,
the byte-identical message `Invalid email or password.`, no token, no
user payload, the store unchanged and the transaction rolled back. -/
theorem C2_login_enumeration_resistance
    (body : LoginBody) (now ttl : Nat) (store : Store)
    (he : isTruthy body.email) (hp : isTruthy body.password)
    (hv : validEmail (body.email.getD "")) :
    (findUserByEmailInDB (body.email.getD "") store = none →
      loginUser body now ttl store =
        ⟨401, "Invalid email or password.", none, none, store, false⟩) ∧
    (∀ u, findUserByEmailInDB (body.email.getD "") store = some u →
      bcryptCompare (body.password.getD "") u.password_hash = false →
      loginUser body now ttl store =
        ⟨401, "Invalid email or password.", none, none, store, false⟩) := by
  constructor
  · intro h
    simp [loginUser, he, hp, hv, h]
  · intro u h hc
    simp [loginUser, he, hp, hv, h, hc]

/-- Witness for C2 on the demo store: an email that matches no row and a
wrong password for an existing row give the same 401 response. -/
theorem C2_witness :
    loginUser ⟨some "zz@b.com", some "pw"⟩ 999 600 demoStore =
      ⟨401, "Invalid email or password.", none, none, demoStore, false⟩ ∧
    loginUser ⟨some "a@b.com", some "wrong"⟩ 999 600 demoStore =
      ⟨401, "Invalid email or password.", none, none, demoStore, false⟩ := by
  constructor
  · exact (C2_login_enumeration_resistance ⟨some "zz@b.com", some "pw"⟩ 999 600
      demoStore (by decide) (by decide) (by decide)).1 (by decide)
  · exact (C2_login_enumeration_resistance ⟨some "a@b.com", some "wrong"⟩ 999 600
      demoStore (by decide) (by decide) (by decide)).2 demoU1 (by decide) (by decide)

/-! ## C5 -/

/-- C5 (code bug): a login request with a missing field or a malformed
email is answered with status 500 and the generic message, not with the
400 the validation helpers attach: the catch handler of `loginUser`
never reads `error.statusCode`. No transaction is opened (the store is
untouched), but the status is 500. -/
theorem C5_login_validation_swallowed_to_500 (store : Store) (now ttl : Nat) :
    loginUser ⟨none, some "pw"⟩ now ttl store =
      ⟨500, "An error occurred during login.", none, none, store, false⟩ ∧
    loginUser ⟨some "a@b.com", none⟩ now ttl store =
      ⟨500, "An error occurred during login.", none, none, store, false⟩ ∧
    loginUser ⟨some "not-an-email", some "pw"⟩ now ttl store =
      ⟨500, "An error occurred during login.", none, none, store, false⟩ ∧
    (500 : Nat) ≠ 400 := by
  refine ⟨?_, ?_, ?_, by decide⟩
  · simp [loginUser, isTruthy]
  · simp [loginUser, isTruthy]
  · simp [loginUser, isTruthy]
    intro h
    exact absurd h (by decide)

/-! ## C4 -/

/-- Stamping a login time never changes any email, so availability checks
see through it. -/
theorem emailTaken_updateLastLogin (e : String) (i n : Nat) (s : Store) :
    emailTaken e (updateUserLastLoginDate i n s) = emailTaken e s := by
  unfold emailTaken updateUserLastLoginDate
  rw [List.any_map]
  congr 1
  funext u
  simp only [Function.comp_apply]
  split <;> rfl

/-- C4: register uniqueness and atomicity. Under passing field and email
validation: a taken email yields the full 409 `Conflict` response with the
store unchanged and the transaction rolled back; a fresh email commits a
201 response assigning the next id, after which the email is taken and an
identical registration is answered 409 with no further change. -/
theorem C4_register_uniqueness
    (body : RegisterBody) (now ttl : Nat) (store : Store)
    (h1 : isTruthy body.first_name) (h2 : isTruthy body.last_name)
    (h3 : isTruthy body.email) (h4 : isTruthy body.password)
    (hv : validEmail (body.email.getD "")) :
    (emailTaken (body.email.getD "") store = true →
      registerUser body now ttl store =
        ⟨409, "Email already registered.", none, none, none, store, false⟩) ∧
    (emailTaken (body.email.getD "") store = false →
      (registerUser body now ttl store).status = 201 ∧
      (registerUser body now ttl store).committed = true ∧
      (registerUser body now ttl store).userId = some store.nextId ∧
      emailTaken (body.email.getD "") (registerUser body now ttl store).store = true ∧
      registerUser body now ttl (registerUser body now ttl store).store =
        ⟨409, "Email already registered.", none, none, none,
          (registerUser body now ttl store).store, false⟩) := by
  constructor
  · intro ht
    simp [registerUser, firstMissing, h1, h2, h3, h4, hv, ht]
  · intro ht
    have hreg : registerUser body now ttl store =
        ⟨201, "User registered successfully!",
          some (jwtSign store.nextId (body.email.getD "") now ttl), some store.nextId,
          some ⟨store.nextId, body.first_name.getD "", body.last_name.getD "",
            body.email.getD "", jsOrNull body.job_title, jsOrNull body.company⟩,
          updateUserLastLoginDate store.nextId now
            ⟨store.users ++ [⟨store.nextId, body.first_name.getD "",
              body.last_name.getD "", body.email.getD "",
              bcryptHash (body.password.getD ""), jsOrNull body.job_title,
              jsOrNull body.company, "active", now, none⟩], store.nextId + 1⟩,
          true⟩ := by
      simp [registerUser, firstMissing, h1, h2, h3, h4, hv, ht, insertNewUser]
    have htaken : emailTaken (body.email.getD "")
        (registerUser body now ttl store).store = true := by
      rw [hreg]
      show emailTaken _ (updateUserLastLoginDate _ _ _) = true
      rw [emailTaken_updateLastLogin]
      unfold emailTaken
      simp [List.any_append]
    refine ⟨?_, ?_, ?_, htaken, ?_⟩
    · rw [hreg]
    · rw [hreg]
    · rw [hreg]
    · generalize hs2 : (registerUser body now ttl store).store = s2 at htaken ⊢
      simp [registerUser, firstMissing, h1, h2, h3, h4, hv, htaken]

/-- Witness for C4: registering a taken email on the demo store gives the
409 conflict; a fresh email gives 201 with the next id, and repeating it
gives 409. -/
theorem C4_witness :
    registerUser ⟨some "N", some "M", some "a@b.com", some "p", none, none⟩ 50 600 demoStore =
      ⟨409, "Email already registered.", none, none, none, demoStore, false⟩ ∧
    (registerUser ⟨some "N", some "M", some "n@m.com", some "p", none, none⟩ 50 600 demoStore).status = 201 ∧
    (registerUser ⟨some "N", some "M", some "n@m.com", some "p", none, none⟩ 50 600 demoStore).userId = some 4 := by
  refine ⟨?_, ?_, ?_⟩
  · exact (C4_register_uniqueness ⟨some "N", some "M", some "a@b.com", some "p", none, none⟩
      50 600 demoStore (by decide) (by decide) (by decide) (by decide) (by decide)).1 (by decide)
  · exact ((C4_register_uniqueness ⟨some "N", some "M", some "n@m.com", some "p", none, none⟩
      50 600 demoStore (by decide) (by decide) (by decide) (by decide) (by decide)).2 (by decide)).1
  · exact ((C4_register_uniqueness ⟨some "N", some "M", some "n@m.com", some "p", none, none⟩
      50 600 demoStore (by decide) (by decide) (by decide) (by decide) (by decide)).2 (by decide)).2.2.1

/-! ## C1 -/

/-- A zero matched-row count means exactly that no stored row's id is in
the id list. -/
theorem matched_zero_iff (ids : List Int) (store : Store) :
    (store.users.filter (fun u => (u.id : Int) ∈ ids)).length = 0 ↔
      ∀ u ∈ store.users, (u.id : Int) ∉ ids := by
  rw [List.length_eq_zero, List.filter_eq_nil_iff]
  simp

/-- Affected count of the bulk status update, unfolded. -/
theorem updateStatus_fst (ids : List Int) (st : String) (store : Store) :
    (updateStatusForMultipleUsersInDB ids st store).1 =
      (store.users.filter (fun u => (u.id : Int) ∈ ids)).length := rfl

/-- Affected count of the bulk delete, unfolded. -/
theorem delete_fst (ids : List Int) (store : Store) :
    (deleteMultipleUsersFromDB ids store).1 =
      (store.users.filter (fun u => (u.id : Int) ∈ ids)).length := rfl

/-- A matched-zero bulk status update leaves every row as it was. -/
theorem updateStatus_no_match (ids : List Int) (st : String) (store : Store)
    (h : ∀ u ∈ store.users, (u.id : Int) ∉ ids) :
    (updateStatusForMultipleUsersInDB ids st store).2 = store := by
  unfold updateStatusForMultipleUsersInDB
  simp only
  have hm : store.users.map (fun u =>
      if (u.id : Int) ∈ ids then { u with status := st } else u) = store.users := by
    rw [List.map_congr_left (g := id), List.map_id]
    intro u hu
    simp [h u hu]
  rw [hm]

/-- Evaluation of `updateMultipleUsersStatus` down to its final
zero-affected test, under the three validation hypotheses. -/
theorem updateStatus_run (ids : List String) (statusStr : String) (store : Store)
    (hne : ids ≠ []) (hts : statusStr ≠ "")
    (hst : jsToLower statusStr ∈ ["active", "blocked"])
    (hv : validIdsOf ids ≠ []) :
    updateMultipleUsersStatus (some ids) (some statusStr) store =
      if (updateStatusForMultipleUsersInDB (validIdsOf ids) (jsToLower statusStr) store).1 = 0 then
        ⟨404, "No users found matching the provided IDs for status update.",
          (updateStatusForMultipleUsersInDB (validIdsOf ids) (jsToLower statusStr) store).2, true⟩
      else
        ⟨200, "Successfully updated status to \x27" ++ jsToLower statusStr ++ "\x27 for " ++
            toString (updateStatusForMultipleUsersInDB (validIdsOf ids) (jsToLower statusStr) store).1 ++
            " user(s).",
          (updateStatusForMultipleUsersInDB (validIdsOf ids) (jsToLower statusStr) store).2,
          true⟩ := by
  have h1 : isTruthy (some statusStr) = true := by simp [isTruthy, hts]
  have h2 : ¬ (¬ jsToLower statusStr = "active" ∧ ¬ jsToLower statusStr = "blocked") := by
    simp only [List.mem_cons, List.not_mem_nil, or_false] at hst
    tauto
  simp only [updateMultipleUsersStatus, if_neg hne, h1, hst]
  simp only [true_and, List.mem_cons, List.not_mem_nil, or_false]
  rw [if_neg (by tauto), if_neg hv]
  simp only [Option.getD_some]

/-- Evaluation of `deleteMultipleUsers` down to its final zero-affected
test, under the two validation hypotheses. -/
theorem delete_run (ids : List String) (store : Store)
    (hne : ids ≠ []) (hv : validIdsOf ids ≠ []) :
    deleteMultipleUsers (some ids) store =
      if (deleteMultipleUsersFromDB (validIdsOf ids) store).1 = 0 then
        ⟨404, "No users found matching the provided IDs for deletion, or no valid IDs were provided.",
          store, false⟩
      else
        ⟨200, "Successfully deleted " ++
            toString (deleteMultipleUsersFromDB (validIdsOf ids) store).1 ++ " user(s).",
          (deleteMultipleUsersFromDB (validIdsOf ids) store).2, true⟩ := by
  simp only [deleteMultipleUsers, if_neg hne, if_neg hv]

/-- C1: zero-match asymmetry of the bulk operations. With a non-empty id
array, a valid status and a non-empty coerced id list: when no row
matches, bulk delete answers 404 with the transaction not committed and
the store unchanged, while bulk status update answers 404 with the
transaction committed (its no-op write included) and the store equally
unchanged; when at least one row matches, both commit and answer 200 with
the affected count in the message. -/
theorem C1_bulk_zero_match_asymmetry
    (ids : List String) (statusStr : String) (store : Store)
    (hne : ids ≠ []) (hts : statusStr ≠ "")
    (hst : jsToLower statusStr ∈ ["active", "blocked"])
    (hv : validIdsOf ids ≠ []) :
    ((∀ u ∈ store.users, (u.id : Int) ∉ validIdsOf ids) →
      deleteMultipleUsers (some ids) store =
        ⟨404, "No users found matching the provided IDs for deletion, or no valid IDs were provided.",
          store, false⟩ ∧
      updateMultipleUsersStatus (some ids) (some statusStr) store =
        ⟨404, "No users found matching the provided IDs for status update.",
          store, true⟩) ∧
    ((∃ u ∈ store.users, (u.id : Int) ∈ validIdsOf ids) →
      deleteMultipleUsers (some ids) store =
        ⟨200, "Successfully deleted " ++
            toString (deleteMultipleUsersFromDB (validIdsOf ids) store).1 ++ " user(s).",
          (deleteMultipleUsersFromDB (validIdsOf ids) store).2, true⟩ ∧
      updateMultipleUsersStatus (some ids) (some statusStr) store =
        ⟨200, "Successfully updated status to \x27" ++ jsToLower statusStr ++ "\x27 for " ++
            toString (updateStatusForMultipleUsersInDB (validIdsOf ids) (jsToLower statusStr) store).1 ++
            " user(s).",
          (updateStatusForMultipleUsersInDB (validIdsOf ids) (jsToLower statusStr) store).2,
          true⟩) := by
  constructor
  · intro hzero
    have hd0 : (store.users.filter (fun u => (u.id : Int) ∈ validIdsOf ids)).length = 0 :=
      (matched_zero_iff _ _).mpr hzero
    constructor
    · rw [delete_run ids store hne hv, if_pos (by rw [delete_fst]; exact hd0)]
    · rw [updateStatus_run ids statusStr store hne hts hst hv,
        if_pos (by rw [updateStatus_fst]; exact hd0),
        updateStatus_no_match _ _ _ hzero]
  · intro hsome
    have hd0 : ¬ (store.users.filter (fun u => (u.id : Int) ∈ validIdsOf ids)).length = 0 := by
      intro h
      rcases hsome with ⟨u, hu, hmem⟩
      exact absurd hmem ((matched_zero_iff _ _).mp h u hu)
    constructor
    · rw [delete_run ids store hne hv, if_neg (by rw [delete_fst]; exact hd0)]
    · rw [updateStatus_run ids statusStr store hne hts hst hv,
        if_neg (by rw [updateStatus_fst]; exact hd0)]

/-- Witness for C1: on the demo store, id 99 matches nothing (delete 404
uncommitted, update 404 committed), and id 2 matches one row (both 200). -/
theorem C1_witness :
    (deleteMultipleUsers (some ["99"]) demoStore =
      ⟨404, "No users found matching the provided IDs for deletion, or no valid IDs were provided.",
        demoStore, false⟩ ∧
      updateMultipleUsersStatus (some ["99"]) (some "Active") demoStore =
        ⟨404, "No users found matching the provided IDs for status update.",
          demoStore, true⟩) ∧
    (deleteMultipleUsers (some ["2"]) demoStore).status = 200 ∧
    (updateMultipleUsersStatus (some ["2"]) (some "Active") demoStore).status = 200 := by
  refine ⟨?_, ?_, ?_⟩
  · exact (C1_bulk_zero_match_asymmetry ["99"] "Active" demoStore (by decide) (by decide)
      (by decide) (by decide)).1 (by decide)
  · rw [((C1_bulk_zero_match_asymmetry ["2"] "Active" demoStore (by decide) (by decide)
      (by decide) (by decide)).2 (by decide)).1]
  · rw [((C1_bulk_zero_match_asymmetry ["2"] "Active" demoStore (by decide) (by decide)
      (by decide) (by decide)).2 (by decide)).2]

/-! ## Auth-guard helper lemmas -/

/-- Every list is an initial segment of itself extended on the right. -/
theorem leadsWith_self_append (a b : List Char) : leadsWith a (a ++ b) = true := by
  induction a with
  | nil => rfl
  | cons c cs ih => simp [leadsWith, ih]

/-- Extending the scanned list on the right preserves an initial segment. -/
theorem leadsWith_mono (p a b : List Char) (h : leadsWith p a = true) :
    leadsWith p (a ++ b) = true := by
  induction p generalizing a with
  | nil => rfl
  | cons c ps ih =>
    cases a with
    | nil => exact absurd h (by simp [leadsWith])
    | cons a0 as =>
      simp only [leadsWith, Bool.and_eq_true] at h
      simp only [List.cons_append, leadsWith, Bool.and_eq_true]
      exact ⟨h.1, ih as h.2⟩

/-- Splitting a space-free character list yields the single segment. -/
theorem splitSpAux_no_space (l acc : List Char) (h : ' ' ∉ l) :
    splitSpAux l acc = [String.mk (acc.reverse ++ l)] := by
  induction l generalizing acc with
  | nil => simp [splitSpAux]
  | cons c cs ih =>
    rw [List.mem_cons, not_or] at h
    simp only [splitSpAux]
    rw [if_neg (fun hc => h.1 hc.symm), ih _ h.2]
    congr 2
    simp

/-- Splitting a space-free word, a space, then a space-free tail yields
exactly the two segments. -/
theorem splitSpAux_append_space (w : List Char) (t : String) (acc : List Char)
    (hw : ' ' ∉ w) (ht : ' ' ∉ t.data) :
    splitSpAux (w ++ ' ' :: t.data) acc = [String.mk (acc.reverse ++ w), t] := by
  induction w generalizing acc with
  | nil =>
    simp only [List.nil_append, splitSpAux, if_pos rfl]
    rw [splitSpAux_no_space t.data [] ht]
    simp
  | cons c cs ih =>
    rw [List.mem_cons, not_or] at hw
    simp only [List.cons_append, splitSpAux]
    rw [if_neg (fun hc => hw.1 hc.symm)]
    show splitSpAux (cs ++ ' ' :: t.data) (c :: acc) = _
    rw [ih _ hw.2,
      show (c :: acc).reverse ++ cs = acc.reverse ++ c :: cs from by simp]

/-- Character data of a scheme-word header. -/
theorem header_data (w t : String) :
    (w ++ " " ++ t).data = w.data ++ (' ' :: t.data) := by
  rw [String.data_append, String.data_append,
    show (" " : String).data = [' '] from by decide]
  simp

/-- Behaviour of `protect` on a header `w ++ " " ++ t` whose scheme word
begins with the characters `Bearer`: the header passes the scheme probe,
the token extracted is exactly `t`, and the outcome follows the
verification result. -/
theorem protect_scheme_run (env : String → VerifyOutcome) (w t : String)
    (store : Store) (hw : ' ' ∉ w.data) (ht : ' ' ∉ t.data)
    (hs : leadsWith ("Bearer".data) w.data = true) :
    protect env (some (w ++ " " ++ t)) store =
      match env t with
      | .malformed =>
        .reject 401 "Not authorized, invalid token (e.g., signature mismatch or malformed)"
      | .expired e =>
        .reject 401 ("Not authorized, token expired at " ++ renderDate (e * 1000))
      | .otherFailure =>
        .reject 401 "Not authorized, token verification process failed"
      | .ok claims =>
        match getUserForAuth claims.userId store with
        | none => .reject 401 "Not authorized, user associated with token not found"
        | some cu =>
          if cu.status = "blocked" then
            .reject 403 "Forbidden: Your account is blocked."
          else .proceed cu := by
  have hne : (w ++ " " ++ t) ≠ "" := by
    intro h
    rw [String.ext_iff, header_data,
      show ("" : String).data = [] from rfl] at h
    exact absurd h (by simp)
  have hstart : jsStartsWith (w ++ " " ++ t) "Bearer" = true := by
    unfold jsStartsWith
    rw [header_data]
    exact leadsWith_mono _ _ _ hs
  have hextract : extractBearerToken (w ++ " " ++ t) = some t := by
    unfold extractBearerToken jsSplitSpace
    rw [header_data, splitSpAux_append_space w.data t [] hw ht]
    rfl
  simp only [protect]
  rw [if_pos ⟨hne, hstart⟩, hextract]
  rfl

/-! ## C6 -/

/-- C6: expired-token rejection. A header carrying a token the verifier
reports expired (with original expiry `e`, in seconds) is rejected 401
through the `TokenExpiredError` path; the message embeds the original
expiry timestamp (as the `Date` rendering of its millisecond value) and is
distinct from the structurally-invalid-token message for every expiry; a
token signed with `ttl = 0` expires exactly at its issue time. -/
theorem C6_expired_token_rejection (env : String → VerifyOutcome) (t : String)
    (store : Store) (e : Nat) (ht : ' ' ∉ t.data)
    (hexp : env t = .expired e) :
    protect env (some ("Bearer " ++ t)) store =
      .reject 401 ("Not authorized, token expired at " ++ renderDate (e * 1000)) ∧
    (∃ a b : String,
      "Not authorized, token expired at " ++ renderDate (e * 1000) =
        a ++ toString (e * 1000) ++ b) ∧
    (∀ x : Nat,
      "Not authorized, token expired at " ++ renderDate x ≠
        "Not authorized, invalid token (e.g., signature mismatch or malformed)") ∧
    (∀ uid em now, (jwtSign uid em now 0).exp = now) := by
  refine ⟨?_, ?_, ?_, fun uid em now => rfl⟩
  · rw [show ("Bearer " : String) = "Bearer" ++ " " from by decide,
      protect_scheme_run env "Bearer" t store (by decide) ht (by decide), hexp]
  · refine ⟨"Not authorized, token expired at Date(", ")", ?_⟩
    rw [String.ext_iff]
    simp [renderDate, String.data_append]
  · intro x h
    have hd := congrArg String.data h
    rw [String.data_append] at hd
    have hl := leadsWith_self_append ("Not authorized, token expired at ").data
      (renderDate x).data
    rw [hd] at hl
    exact absurd hl (by decide)

/-- Witness for C6 at a concrete environment, token and expiry. -/
theorem C6_witness :
    protect (fun _ => .expired 7) (some ("Bearer " ++ "tok")) demoStore =
      .reject 401 ("Not authorized, token expired at " ++ renderDate 7000) := by
  exact (C6_expired_token_rejection (fun _ => .expired 7) "tok" demoStore 7
    (by decide) rfl).1

/-! ## C7 -/

/-- C7: blocked-account gating. Login with the correct password for a
blocked user is rejected 403 with no token, no login-time stamp and a
rolled-back transaction; and the guard, re-reading the user's live status
from the store, rejects a structurally valid verified token for a blocked
user with 403. -/
theorem C7_blocked_account_gating :
    (∀ (body : LoginBody) (now ttl : Nat) (store : Store) (u : User),
      isTruthy body.email → isTruthy body.password →
      validEmail (body.email.getD "") →
      findUserByEmailInDB (body.email.getD "") store = some u →
      bcryptCompare (body.password.getD "") u.password_hash = true →
      u.status = "blocked" →
      loginUser body now ttl store =
        ⟨403, "Account is blocked. Please contact support.", none, none,
          store, false⟩) ∧
    (∀ (env : String → VerifyOutcome) (t : String) (store : Store) (u : User)
      (uid : Nat) (em : String),
      ' ' ∉ t.data → env t = .ok ⟨uid, em⟩ →
      store.users.find? (fun v => v.id = uid) = some u →
      u.status = "blocked" →
      protect env (some ("Bearer " ++ t)) store =
        .reject 403 "Forbidden: Your account is blocked.") := by
  constructor
  · intro body now ttl store u he hp hv hfind hc hb
    simp [loginUser, he, hp, hv, hfind, hc, hb]
  · intro env t store u uid em ht hok hfind hb
    rw [show ("Bearer " : String) = "Bearer" ++ " " from by decide,
      protect_scheme_run env "Bearer" t store (by decide) ht (by decide), hok]
    simp [getUserForAuth, hfind, hb]

/-- Witness for C7: the blocked demo user is rejected 403 both at login
with the correct password and at the guard with a verified token. -/
theorem C7_witness :
    loginUser ⟨some "e@f.com", some "pw3"⟩ 999 600 demoStore =
      ⟨403, "Account is blocked. Please contact support.", none, none,
        demoStore, false⟩ ∧
    protect (fun _ => .ok ⟨3, "e@f.com"⟩) (some ("Bearer " ++ "tok")) demoStore =
      .reject 403 "Forbidden: Your account is blocked." := by
  constructor
  · exact C7_blocked_account_gating.1 ⟨some "e@f.com", some "pw3"⟩ 999 600
      demoStore demoU3 (by decide) (by decide) (by decide) (by decide)
      (by decide) (by decide)
  · exact C7_blocked_account_gating.2 (fun _ => .ok ⟨3, "e@f.com"⟩) "tok"
      demoStore demoU3 3 "e@f.com" (by decide) rfl (by decide) (by decide)

/-! ## C9 -/

/-- C9: bearer-scheme edge cases. The scheme probe accepts any header that
merely starts with the characters `Bearer`, so a `BearerX <token>` header
behaves exactly like `Bearer <token>`; and a bare `Bearer` header (no
second space-separated part) extracts an undefined token rejected through
the invalid-token 401 path, whose message differs from the
no-bearer-token 401 message. -/
theorem C9_bearer_scheme_edge (env : String → VerifyOutcome) (store : Store) :
    (∀ t : String, ' ' ∉ t.data →
      protect env (some ("BearerX " ++ t)) store =
        protect env (some ("Bearer " ++ t)) store) ∧
    jsStartsWith "BearerX abc" "Bearer" = true ∧
    protect env (some "Bearer") store =
      .reject 401 "Not authorized, invalid token (e.g., signature mismatch or malformed)" ∧
    ("Not authorized, invalid token (e.g., signature mismatch or malformed)" ≠
      "Not authorized, no Bearer token provided") := by
  refine ⟨?_, by decide, ?_, by decide⟩
  · intro t ht
    rw [show ("BearerX " : String) = "BearerX" ++ " " from by decide,
      show ("Bearer " : String) = "Bearer" ++ " " from by decide,
      protect_scheme_run env "BearerX" t store (by decide) ht (by decide),
      protect_scheme_run env "Bearer" t store (by decide) ht (by decide)]
  · have hx : extractBearerToken "Bearer" = none := by decide
    simp only [protect,
      if_pos (⟨by decide, by decide⟩ :
        ("Bearer" : String) ≠ "" ∧ jsStartsWith "Bearer" "Bearer" = true),
      hx]
    rfl

/-- Witness for C9: with a concrete environment, a `BearerX` header
verifies the same token as the proper scheme. -/
theorem C9_witness :
    protect (fun tk => if tk = "g" then .ok ⟨1, "a@b.com"⟩ else .malformed)
        (some ("BearerX " ++ "g")) demoStore =
      protect (fun tk => if tk = "g" then .ok ⟨1, "a@b.com"⟩ else .malformed)
        (some ("Bearer " ++ "g")) demoStore := by
  exact (C9_bearer_scheme_edge
    (fun tk => if tk = "g" then .ok ⟨1, "a@b.com"⟩ else .malformed)
    demoStore).1 "g" (by decide)

/-! ## C10 -/

/-- Leading whitespace skipping is a no-op on a digit-headed list. -/
theorem dropWs_digit_head (c : Char) (cs : List Char) (h : c.isDigit = true) :
    dropWs (c :: cs) = c :: cs := by
  unfold dropWs
  rw [if_neg]
  intro hc
  rcases hc with h1 | h1 | h1 | h1 <;> (rw [h1] at h; exact absurd h (by decide))

/-- The maximal digit run of digits followed by a non-digit-headed tail is
exactly the digit block. -/
theorem takeDigits_append (ds rest : List Char)
    (hd : ∀ c ∈ ds, c.isDigit = true)
    (hr : ∀ c, rest.head? = some c → c.isDigit = false) :
    takeDigits (ds ++ rest) = ds := by
  induction ds with
  | nil =>
    simp only [List.nil_append]
    cases rest with
    | nil => rfl
    | cons r rs =>
      unfold takeDigits
      rw [if_neg]
      simp [hr r rfl]
  | cons d dsx ih =>
    simp only [List.cons_append]
    unfold takeDigits
    rw [if_pos (hd d (List.mem_cons_self d dsx)),
      ih (fun c hc => hd c (List.mem_cons_of_mem d hc))]

/-- Decimal prefix parsing of a digit block followed by a non-digit tail
recovers the block's value. -/
theorem jsParseInt10_digits (ds : List Char) (rest : String)
    (hne : ds ≠ []) (hd : ∀ c ∈ ds, c.isDigit = true)
    (hr : ∀ c, rest.data.head? = some c → c.isDigit = false) :
    jsParseInt10 (String.mk (ds ++ rest.data)) = some (digitsVal ds : Int) := by
  cases ds with
  | nil => exact absurd rfl hne
  | cons d dsx =>
    have hdd : d.isDigit = true := hd d (List.mem_cons_self d dsx)
    have hminus : d ≠ '-' := by
      intro h
      rw [h] at hdd
      exact absurd hdd (by decide)
    have hplus : d ≠ '+' := by
      intro h
      rw [h] at hdd
      exact absurd hdd (by decide)
    have hdrop : dropWs ((d :: dsx) ++ rest.data) = d :: (dsx ++ rest.data) := by
      rw [List.cons_append]
      exact dropWs_digit_head d _ hdd
    have htake : takeDigits (d :: (dsx ++ rest.data)) = d :: dsx := by
      rw [← List.cons_append]
      exact takeDigits_append (d :: dsx) rest.data hd hr
    unfold jsParseInt10
    simp only [show (String.mk ((d :: dsx) ++ rest.data)).data =
        (d :: dsx) ++ rest.data from rfl,
      hdrop, List.head?_cons, htake]
    simp [hminus, hplus, htake]

/-- C10: id coercion in the bulk operations. A string whose characters are
a positive digit block followed by a non-digit tail is coerced to that
block's value and kept; a string with no leading integer, or one whose
parse is non-positive, is discarded; the coercion is applied entrywise
(so duplicates survive, e.g. `["5","5"]` yields `[5, 5]`); and both bulk
controllers act on the coerced id, e.g. `"12abc"` deletes or updates the
row with id 12. -/
theorem C10_id_coercion :
    (∀ (ds : List Char) (rest : String), ds ≠ [] →
      (∀ c ∈ ds, c.isDigit = true) →
      (∀ c, rest.data.head? = some c → c.isDigit = false) →
      0 < digitsVal ds →
      validIdsOf [String.mk (ds ++ rest.data)] = [(digitsVal ds : Int)]) ∧
    (∀ s, jsParseInt10 s = none → validIdsOf [s] = []) ∧
    (∀ s n, jsParseInt10 s = some n → n ≤ 0 → validIdsOf [s] = []) ∧
    (∀ s ids, validIdsOf (s :: ids) = validIdsOf [s] ++ validIdsOf ids) ∧
    validIdsOf ["5", "5"] = [5, 5] ∧
    deleteMultipleUsers (some ["12abc"])
        ⟨[⟨12, "Pat", "Roe", "p@r.com", bcryptHash "pw12", none, none,
          "active", 40, none⟩], 13⟩ =
      ⟨200, "Successfully deleted 1 user(s).", ⟨[], 13⟩, true⟩ ∧
    updateMultipleUsersStatus (some ["12abc"]) (some "blocked")
        ⟨[⟨12, "Pat", "Roe", "p@r.com", bcryptHash "pw12", none, none,
          "active", 40, none⟩], 13⟩ =
      ⟨200, "Successfully updated status to \x27blocked\x27 for 1 user(s).",
        ⟨[⟨12, "Pat", "Roe", "p@r.com", bcryptHash "pw12", none, none,
          "blocked", 40, none⟩], 13⟩, true⟩ := by
  refine ⟨?_, ?_, ?_, ?_, by decide, by decide, by decide⟩
  · intro ds rest hne hd hr hpos
    simp [validIdsOf, jsParseInt10_digits ds rest hne hd hr, hpos]
  · intro s h
    simp [validIdsOf, h]
  · intro s n h hn
    simp [validIdsOf, h, show ¬ (0 < n) from by omega]
  · intro s ids
    simp only [validIdsOf, List.filterMap_cons]
    cases h : jsParseInt10 s with
    | none => simp
    | some n =>
      by_cases hn : 0 < n <;> simp [hn]

/-- Witness for C10 at concrete strings. -/
theorem C10_witness :
    validIdsOf [String.mk ("12".data ++ "abc".data)] = [12] ∧
    validIdsOf ["xyz"] = [] ∧ validIdsOf ["-3"] = [] := by
  refine ⟨?_, ?_, ?_⟩
  · rw [C10_id_coercion.1 "12".data "abc" (by decide) (by decide) (by decide)
      (by decide)]
    decide
  · exact C10_id_coercion.2.1 "xyz" (by decide)
  · exact C10_id_coercion.2.2.1 "-3" (-3) (by decide) (by decide)

/-! ## Comparator theory for the sort policy -/

/-- A comparator that behaves like one induced by a linear pre-order:
antisymmetric under argument swap, transitive on strict results, and with
`eq` results substitutive. -/
def LawfulCmp {α : Type} (cmp : α → α → Ordering) : Prop :=
  (∀ a b, cmp b a = (cmp a b).swap) ∧
  (∀ a b c, cmp a b = .lt → cmp b c = .lt → cmp a c = .lt) ∧
  (∀ a b c, cmp a b = .eq → cmp a c = cmp b c)

/-- Numeric comparison is lawful. -/
theorem lawful_natCmpAsc : LawfulCmp natCmpAsc := by
  refine ⟨?_, ?_, ?_⟩
  · intro a b
    unfold natCmpAsc
    split_ifs <;> first | rfl | omega
  · intro a b c h1 h2
    unfold natCmpAsc at h1 h2 ⊢
    split_ifs at h1 h2 ⊢ <;> first | rfl | omega
  · intro a b c h
    unfold natCmpAsc at h
    by_cases h1 : a < b
    · rw [if_pos h1] at h
      exact absurd h (by decide)
    by_cases h2 : b < a
    · rw [if_neg h1, if_pos h2] at h
      exact absurd h (by decide)
    have hab : a = b := by omega
    rw [hab]

/-- Character-list comparison: swap law. -/
theorem charsCmp_swap (a b : List Char) : charsCmp b a = (charsCmp a b).swap := by
  induction a generalizing b with
  | nil => cases b <;> rfl
  | cons a0 as ih =>
    cases b with
    | nil => rfl
    | cons b0 bs =>
      simp only [charsCmp]
      rcases Nat.lt_trichotomy a0.toNat b0.toNat with h | h | h
      · rw [if_neg (by omega), if_pos h, if_pos h]
        rfl
      · rw [if_neg (by omega), if_neg (by omega), if_neg (by omega),
          if_neg (by omega)]
        exact ih bs
      · rw [if_pos h, if_neg (by omega), if_pos h]
        rfl

/-- Character-list comparison: strict transitivity. -/
theorem charsCmp_lt_trans (a b c : List Char) (h1 : charsCmp a b = .lt)
    (h2 : charsCmp b c = .lt) : charsCmp a c = .lt := by
  induction a generalizing b c with
  | nil =>
    cases c with
    | nil =>
      cases b with
      | nil => exact h2
      | cons b0 bs => exact absurd h2 (by simp [charsCmp])
    | cons c0 cs => rfl
  | cons a0 as ih =>
    cases b with
    | nil => exact absurd h1 (by simp [charsCmp])
    | cons b0 bs =>
      cases c with
      | nil => exact absurd h2 (by simp [charsCmp])
      | cons c0 cs =>
        simp only [charsCmp] at h1 h2 ⊢
        rcases Nat.lt_trichotomy a0.toNat b0.toNat with hab | hab | hab
        · rcases Nat.lt_trichotomy b0.toNat c0.toNat with hbc | hbc | hbc
          · rw [if_pos (by omega)]
          · rw [if_pos (by omega)]
          · rw [if_neg (by omega), if_pos hbc] at h2
            exact absurd h2 (by decide)
        · rw [if_neg (by omega), if_neg (by omega)] at h1
          rcases Nat.lt_trichotomy b0.toNat c0.toNat with hbc | hbc | hbc
          · rw [if_pos (by omega)]
          · rw [if_neg (by omega), if_neg (by omega)] at h2
            rw [if_neg (by omega), if_neg (by omega)]
            exact ih bs cs h1 h2
          · rw [if_neg (by omega), if_pos hbc] at h2
            exact absurd h2 (by decide)
        · rw [if_neg (by omega), if_pos hab] at h1
          exact absurd h1 (by decide)

/-- Character-list comparison: `eq` results are substitutive. -/
theorem charsCmp_eq_subst (a b c : List Char) (h : charsCmp a b = .eq) :
    charsCmp a c = charsCmp b c := by
  induction a generalizing b c with
  | nil =>
    cases b with
    | nil => rfl
    | cons b0 bs => exact absurd h (by simp [charsCmp])
  | cons a0 as ih =>
    cases b with
    | nil => exact absurd h (by simp [charsCmp])
    | cons b0 bs =>
      simp only [charsCmp] at h
      by_cases h1 : a0.toNat < b0.toNat
      · rw [if_pos h1] at h
        exact absurd h (by decide)
      by_cases h2 : b0.toNat < a0.toNat
      · rw [if_neg h1, if_pos h2] at h
        exact absurd h (by decide)
      rw [if_neg h1, if_neg h2] at h
      cases c with
      | nil => rfl
      | cons c0 cs =>
        simp only [charsCmp]
        have hteq : a0.toNat = b0.toNat := by omega
        rw [hteq, ih bs cs h]

/-- Character-list comparison is lawful. -/
theorem lawful_charsCmp : LawfulCmp charsCmp :=
  ⟨charsCmp_swap, charsCmp_lt_trans, charsCmp_eq_subst⟩

/-- Lawfulness transports along a key extraction. -/
theorem lawful_onKey {α β : Type} (f : α → β) {cmp : β → β → Ordering}
    (h : LawfulCmp cmp) : LawfulCmp (fun a b => cmp (f a) (f b)) :=
  ⟨fun a b => h.1 (f a) (f b),
   fun a b c => h.2.1 (f a) (f b) (f c),
   fun a b c => h.2.2 (f a) (f b) (f c)⟩

/-- Swapped comparison equals `lt` exactly when the original is `gt`. -/
theorem ordSwap_lt {o : Ordering} : o.swap = .lt ↔ o = .gt := by
  cases o <;> decide

/-- Swapped comparison equals `eq` exactly when the original is. -/
theorem ordSwap_eq {o : Ordering} : o.swap = .eq ↔ o = .eq := by
  cases o <;> decide

/-- Swapped comparison equals `gt` exactly when the original is `lt`. -/
theorem ordSwap_gt {o : Ordering} : o.swap = .gt ↔ o = .lt := by
  cases o <;> decide

/-- Lawfulness is preserved by flipping every comparison. -/
theorem lawful_swapCmp {α : Type} {cmp : α → α → Ordering} (h : LawfulCmp cmp) :
    LawfulCmp (fun a b => (cmp a b).swap) := by
  refine ⟨?_, ?_, ?_⟩
  · intro a b
    show (cmp b a).swap = ((cmp a b).swap).swap
    rw [h.1 a b]
  · intro a b c hab hbc
    have hab' : (cmp a b).swap = .lt := hab
    have hbc' : (cmp b c).swap = .lt := hbc
    show (cmp a c).swap = .lt
    rw [ordSwap_lt] at hab' hbc' ⊢
    have hba : cmp b a = .lt := by rw [h.1 a b, hab']; rfl
    have hcb : cmp c b = .lt := by rw [h.1 b c, hbc']; rfl
    have hca : cmp c a = .lt := h.2.1 c b a hcb hba
    have hs : (cmp a c).swap = .lt := by rw [← h.1 a c]; exact hca
    exact ordSwap_lt.mp hs
  · intro a b c hab
    have hab' : (cmp a b).swap = .eq := hab
    show (cmp a c).swap = (cmp b c).swap
    rw [ordSwap_eq] at hab'
    rw [h.2.2 a b c hab']

/-- Lexicographic `then` equals `lt` exactly when the first key is `lt` or
ties and the second is `lt`. -/
theorem ordThen_lt {x y : Ordering} :
    x.then y = .lt ↔ x = .lt ∨ (x = .eq ∧ y = .lt) := by
  cases x <;> cases y <;> decide

/-- Lexicographic `then` equals `eq` exactly when both keys tie. -/
theorem ordThen_eq {x y : Ordering} : x.then y = .eq ↔ x = .eq ∧ y = .eq := by
  cases x <;> cases y <;> decide

/-- Lawfulness is preserved by lexicographic composition. -/
theorem lawful_then {α : Type} {c1 c2 : α → α → Ordering}
    (h1 : LawfulCmp c1) (h2 : LawfulCmp c2) :
    LawfulCmp (fun a b => (c1 a b).then (c2 a b)) := by
  refine ⟨?_, ?_, ?_⟩
  · intro a b
    show (c1 b a).then (c2 b a) = ((c1 a b).then (c2 a b)).swap
    rw [h1.1 a b, h2.1 a b]
    cases c1 a b <;> cases c2 a b <;> rfl
  · intro a b c hab hbc
    have hab' : (c1 a b).then (c2 a b) = .lt := hab
    have hbc' : (c1 b c).then (c2 b c) = .lt := hbc
    show (c1 a c).then (c2 a c) = .lt
    rw [ordThen_lt] at hab' hbc' ⊢
    rcases hab' with hab' | ⟨hab', hab2⟩ <;> rcases hbc' with hbc' | ⟨hbc', hbc2⟩
    · exact Or.inl (h1.2.1 a b c hab' hbc')
    · left
      have hcb : c1 c b = .eq := by
        rw [h1.1 b c, hbc']
        rfl
      have hca : c1 c a = c1 b a := h1.2.2 c b a hcb
      have hba : c1 b a = .gt := by
        rw [h1.1 a b, hab']
        rfl
      have hsw : (c1 a c).swap = .gt := by
        rw [← h1.1 a c, hca, hba]
      exact ordSwap_gt.mp hsw
    · exact Or.inl (by rw [h1.2.2 a b c hab']; exact hbc')
    · right
      exact ⟨by rw [h1.2.2 a b c hab']; exact hbc', h2.2.1 a b c hab2 hbc2⟩
  · intro a b c hab
    have hab' : (c1 a b).then (c2 a b) = .eq := hab
    show (c1 a c).then (c2 a c) = (c1 b c).then (c2 b c)
    rw [ordThen_eq] at hab'
    rw [h1.2.2 a b c hab'.1, h2.2.2 a b c hab'.2]

/-- String comparison is lawful (it is character comparison on the data). -/
theorem lawful_strCmpAsc : LawfulCmp strCmpAsc := by
  show LawfulCmp fun (a b : String) => charsCmp a.data b.data
  exact lawful_onKey (fun s : String => s.data) lawful_charsCmp

/-- The null-last key comparison is lawful. -/
theorem lawful_nullCmp : LawfulCmp nullCmp := by
  show LawfulCmp fun (a b : Option Nat) =>
    natCmpAsc (if a.isNone then 1 else 0) (if b.isNone then 1 else 0)
  exact lawful_onKey (fun o : Option Nat => if o.isNone then 1 else 0) lawful_natCmpAsc

/-- Applying a sort direction preserves lawfulness. -/
theorem lawful_dirn (so : String) {α : Type} {cmp : α → α → Ordering}
    (h : LawfulCmp cmp) : LawfulCmp (fun a b => dirn so (cmp a b)) := by
  by_cases hso : so = "ASC"
  · have he : (fun a b => dirn so (cmp a b)) = cmp := by
      funext a b
      simp [dirn, hso]
    rw [he]
    exact h
  · have he : (fun a b => dirn so (cmp a b)) = fun a b => (cmp a b).swap := by
      funext a b
      simp [dirn, hso]
    rw [he]
    exact lawful_swapCmp h

/-- Column comparison on any sort key is lawful. -/
theorem lawful_colCmpAsc (col : String) : LawfulCmp (colCmpAsc col) := by
  unfold colCmpAsc
  by_cases h1 : col = "id"
  · simp only [h1, if_pos rfl]
    exact lawful_onKey (fun v : UserView => v.id) lawful_natCmpAsc
  simp only [if_neg h1]
  by_cases h2 : col = "first_name"
  · simp only [h2, if_pos rfl]
    exact lawful_onKey (fun v : UserView => v.first_name) lawful_strCmpAsc
  simp only [if_neg h2]
  by_cases h3 : col = "last_name"
  · simp only [h3, if_pos rfl]
    exact lawful_onKey (fun v : UserView => v.last_name) lawful_strCmpAsc
  simp only [if_neg h3]
  by_cases h4 : col = "email"
  · simp only [h4, if_pos rfl]
    exact lawful_onKey (fun v : UserView => v.email) lawful_strCmpAsc
  simp only [if_neg h4]
  by_cases h5 : col = "registration_date"
  · simp only [h5, if_pos rfl]
    exact lawful_onKey (fun v : UserView => v.registration_date) lawful_natCmpAsc
  simp only [if_neg h5]
  exact lawful_onKey (fun v : UserView => v.status) lawful_strCmpAsc

/-- The full row comparison is lawful for every sort specification. -/
theorem lawful_rowCmp (sb so : String) : LawfulCmp (rowCmp sb so) := by
  by_cases hsb : sb = "last_login_date"
  · have he : rowCmp sb so = fun a b =>
        (nullCmp a.last_login_date b.last_login_date).then
          ((dirn so (natCmpAsc (a.last_login_date.getD 0)
              (b.last_login_date.getD 0))).then
            (dirn so (natCmpAsc a.registration_date b.registration_date))) := by
      funext a b
      simp [rowCmp, hsb]
    rw [he]
    exact lawful_then (lawful_onKey (fun v : UserView => v.last_login_date) lawful_nullCmp)
      (lawful_then
        (lawful_dirn so (lawful_onKey (fun v : UserView => v.last_login_date.getD 0)
          lawful_natCmpAsc))
        (lawful_dirn so (lawful_onKey (fun v : UserView => v.registration_date)
          lawful_natCmpAsc)))
  · have he : rowCmp sb so = fun a b =>
        (dirn so (colCmpAsc sb a b)).then
          ((natCmpAsc a.registration_date b.registration_date).swap) := by
      funext a b
      simp [rowCmp, hsb]
    rw [he]
    exact lawful_then (lawful_dirn so (lawful_colCmpAsc sb))
      (lawful_swapCmp (lawful_onKey (fun v : UserView => v.registration_date)
        lawful_natCmpAsc))

/-- Totality of the boolean row order. -/
theorem rowLe_total (sb so : String) (a b : UserView) :
    (rowLe sb so a b || rowLe sb so b a) = true := by
  unfold rowLe
  rw [(lawful_rowCmp sb so).1 a b]
  cases rowCmp sb so a b <;> rfl

/-- Transitivity of the boolean row order. -/
theorem rowLe_trans (sb so : String) (a b c : UserView)
    (h1 : rowLe sb so a b = true) (h2 : rowLe sb so b c = true) :
    rowLe sb so a c = true := by
  have hL := lawful_rowCmp sb so
  unfold rowLe obLe at h1 h2 ⊢
  have ob : ∀ x y : UserView,
      (match rowCmp sb so x y with | .gt => false | _ => true) = true ↔
        rowCmp sb so x y = .lt ∨ rowCmp sb so x y = .eq := by
    intro x y
    cases rowCmp sb so x y <;> simp
  rw [ob] at h1 h2 ⊢
  rcases h1 with h1 | h1 <;> rcases h2 with h2 | h2
  · exact Or.inl (hL.2.1 a b c h1 h2)
  · left
    have hcb : rowCmp sb so c b = .eq := by
      rw [hL.1 b c, h2]
      rfl
    have hca : rowCmp sb so c a = rowCmp sb so b a := hL.2.2 c b a hcb
    have hba : rowCmp sb so b a = .gt := by
      rw [hL.1 a b, h1]
      rfl
    have hsw : (rowCmp sb so a c).swap = .gt := by
      rw [← hL.1 a c, hca, hba]
    exact ordSwap_gt.mp hsw
  · exact Or.inl (by rw [hL.2.2 a b c h1]; exact h2)
  · exact Or.inr (by rw [hL.2.2 a b c h1]; exact h2)

/-- Lexicographic composition with a tying first key reduces to the second. -/
theorem eq_then (o : Ordering) : Ordering.eq.then o = o := rfl

/-- Comparing two non-null login dates ties on the null-last key. -/
theorem nullCmp_some (x y : Nat) : nullCmp (some x) (some y) = .eq := rfl

/-- Ascending direction leaves a comparison unchanged. -/
theorem dirn_asc (o : Ordering) : dirn "ASC" o = o := by simp [dirn]

/-- Descending direction flips a comparison. -/
theorem dirn_desc (o : Ordering) : dirn "DESC" o = o.swap := by simp [dirn]

/-- Characterisation of the non-strict order induced by a lex pair of
ascending numeric comparisons. -/
theorem obLe_then_natAsc (x y p q : Nat) :
    obLe ((natCmpAsc x y).then (natCmpAsc p q)) = true ↔
      (x < y ∨ (x = y ∧ p ≤ q)) := by
  unfold natCmpAsc
  split_ifs <;> simp [Ordering.then, obLe] <;> omega

/-- Null-last placement: under the `last_login_date` key, a null row sorts
after every non-null row in either direction. -/
theorem rowLe_null_last (so : String) (a b : UserView)
    (ha : a.last_login_date = none) (hb : b.last_login_date ≠ none) :
    rowLe "last_login_date" so b a = true ∧
      rowLe "last_login_date" so a b = false := by
  have hbs : b.last_login_date.isNone = false := by
    cases hx : b.last_login_date
    · exact absurd hx hb
    · rfl
  constructor
  · unfold rowLe rowCmp
    rw [if_pos rfl]
    simp [nullCmp, ha, hbs, natCmpAsc, obLe, Ordering.then]
  · unfold rowLe rowCmp
    rw [if_pos rfl]
    simp [nullCmp, ha, hbs, natCmpAsc, obLe, Ordering.then]

/-- Ascending order on two non-null login dates: by value, then by
registration date ascending. -/
theorem rowLe_ll_asc (a b : UserView) (x y : Nat)
    (ha : a.last_login_date = some x) (hb : b.last_login_date = some y) :
    rowLe "last_login_date" "ASC" a b = true ↔
      (x < y ∨ (x = y ∧ a.registration_date ≤ b.registration_date)) := by
  unfold rowLe rowCmp
  rw [if_pos rfl]
  simp only [ha, hb, Option.getD_some, nullCmp_some, eq_then, dirn_asc]
  exact obLe_then_natAsc x y a.registration_date b.registration_date

/-- Descending order on two non-null login dates: by value descending,
then by registration date descending. -/
theorem rowLe_ll_desc (a b : UserView) (x y : Nat)
    (ha : a.last_login_date = some x) (hb : b.last_login_date = some y) :
    rowLe "last_login_date" "DESC" a b = true ↔
      (y < x ∨ (x = y ∧ b.registration_date ≤ a.registration_date)) := by
  unfold rowLe rowCmp
  rw [if_pos rfl]
  simp only [ha, hb, Option.getD_some, nullCmp_some, eq_then, dirn_desc]
  rw [← lawful_natCmpAsc.1 x y,
    ← lawful_natCmpAsc.1 a.registration_date b.registration_date]
  rw [obLe_then_natAsc y x b.registration_date a.registration_date]
  omega

/-- Under any other sort key, ties on the key column break by registration
date descending, whatever the requested direction. -/
theorem rowLe_other_tie (sb so : String) (a b : UserView)
    (hsb : sb ≠ "last_login_date") (hcol : colCmpAsc sb a b = .eq) :
    rowLe sb so a b = true ↔
      b.registration_date ≤ a.registration_date := by
  unfold rowLe rowCmp
  rw [if_neg hsb, hcol]
  have hde : dirn so .eq = .eq := by
    unfold dirn
    split_ifs <;> rfl
  rw [hde, eq_then, ← lawful_natCmpAsc.1 a.registration_date b.registration_date]
  unfold natCmpAsc
  split_ifs <;> simp [obLe] <;> omega

/-! ## C3 -/

/-- C3: the list sort policy. `sortBy` resolves to itself on the allow-list
and to `last_login_date` otherwise; `sortOrder` resolves to `ASC` exactly
when it upper-cases to `ASC` and to `DESC` otherwise; the fetched list is
a permutation of the projected rows, pairwise ordered by the resolved row
order; under the `last_login_date` key null rows sort after all non-null
rows in either direction, non-null rows order by the requested direction
with registration date in the matching direction as tie-break; and under
every other key, key ties break by registration date descending
unconditionally. -/
theorem C3_list_sort_policy :
    (∀ sb : String,
      effectiveSortBy sb = if sb ∈ allowedSortBy then sb else "last_login_date") ∧
    (∀ so : String,
      effectiveSortOrder so = if jsToUpper so = "ASC" then "ASC" else "DESC") ∧
    (∀ (store : Store) (sb so : String),
      (fetchAllUsersFromDB store sb so).Perm (store.users.map toView)) ∧
    (∀ (store : Store) (sb so : String),
      (fetchAllUsersFromDB store sb so).Pairwise
        (fun a b => rowLe (effectiveSortBy sb) (effectiveSortOrder so) a b = true)) ∧
    (∀ (so : String) (a b : UserView), a.last_login_date = none →
      b.last_login_date ≠ none →
      rowLe "last_login_date" so b a = true ∧
      rowLe "last_login_date" so a b = false) ∧
    (∀ (a b : UserView) (x y : Nat), a.last_login_date = some x →
      b.last_login_date = some y →
      (rowLe "last_login_date" "ASC" a b = true ↔
        (x < y ∨ (x = y ∧ a.registration_date ≤ b.registration_date))) ∧
      (rowLe "last_login_date" "DESC" a b = true ↔
        (y < x ∨ (x = y ∧ b.registration_date ≤ a.registration_date)))) ∧
    (∀ (sb so : String) (a b : UserView), sb ≠ "last_login_date" →
      colCmpAsc sb a b = .eq →
      (rowLe sb so a b = true ↔
        b.registration_date ≤ a.registration_date)) := by
  refine ⟨?_, ?_, ?_, ?_, ?_, ?_, ?_⟩
  · intro sb
    unfold effectiveSortBy
    by_cases hm : sb ∈ allowedSortBy
    · have hne : sb ≠ "" := fun h => by
        rw [h] at hm
        exact absurd hm (by decide)
      rw [if_pos ⟨hne, hm⟩, if_pos hm]
    · rw [if_neg (fun hc => hm hc.2), if_neg hm]
  · intro so
    unfold effectiveSortOrder
    by_cases hup : jsToUpper so = "ASC"
    · have hne : so ≠ "" := fun h => by
        rw [h] at hup
        exact absurd hup (by decide)
      rw [if_pos ⟨hne, hup⟩, if_pos hup]
    · rw [if_neg (fun hc => hup hc.2), if_neg hup]
  · intro store sb so
    exact List.mergeSort_perm (store.users.map toView) _
  · intro store sb so
    exact List.sorted_mergeSort
      (fun a b c => rowLe_trans (effectiveSortBy sb) (effectiveSortOrder so) a b c)
      (fun a b => rowLe_total (effectiveSortBy sb) (effectiveSortOrder so) a b)
      (store.users.map toView)
  · exact fun so a b ha hb => rowLe_null_last so a b ha hb
  · exact fun a b x y ha hb =>
      ⟨rowLe_ll_asc a b x y ha hb, rowLe_ll_desc a b x y ha hb⟩
  · exact fun sb so a b hsb hcol => rowLe_other_tie sb so a b hsb hcol

/-- Witness for C3 at concrete inputs: the fallback and allow-list
resolutions, the case-insensitive order resolution, and the null-last
placement between two demo rows. -/
theorem C3_witness :
    effectiveSortBy "bogus" = "last_login_date" ∧
    effectiveSortBy "email" = "email" ∧
    effectiveSortOrder "asc" = "ASC" ∧
    effectiveSortOrder "down" = "DESC" ∧
    rowLe "last_login_date" "DESC" (toView demoU2) (toView demoU1) = true ∧
    rowLe "last_login_date" "DESC" (toView demoU1) (toView demoU2) = false := by
  refine ⟨?_, ?_, ?_, ?_, ?_, ?_⟩
  · rw [C3_list_sort_policy.1 "bogus"]
    decide
  · rw [C3_list_sort_policy.1 "email"]
    decide
  · rw [C3_list_sort_policy.2.1 "asc"]
    decide
  · rw [C3_list_sort_policy.2.1 "down"]
    decide
  · exact (C3_list_sort_policy.2.2.2.2.1 "DESC" (toView demoU1) (toView demoU2)
      (by decide) (by decide)).1
  · exact (C3_list_sort_policy.2.2.2.2.1 "DESC" (toView demoU1) (toView demoU2)
      (by decide) (by decide)).2

/-! ## C8: digest confidentiality -/

/-- Renaming of every stored digest. Responses that are invariant under
every such renaming cannot contain (or depend on) any digest value. -/
def mapDigests (f : String → String) (store : Store) : Store :=
  ⟨store.users.map (fun u => { u with password_hash := f u.password_hash }),
    store.nextId⟩

/-- Observable response part of a login result (everything but the store). -/
def loginResponse (r : LoginResult) :
    Nat × String × Option Token × Option LoginUserOut × Bool :=
  (r.status, r.message, r.token, r.user, r.committed)

/-- Observable response part of a register result. -/
def registerResponse (r : RegisterResult) :
    Nat × String × Option Token × Option Nat × Option RegisterUserOut × Bool :=
  (r.status, r.message, r.token, r.userId, r.user, r.committed)

/-- Observable response part of a bulk result. -/
def bulkResponse (r : BulkResult) : Nat × String × Bool :=
  (r.status, r.message, r.committed)

/-- Digest renaming commutes out of the projected row list. -/
theorem mapToView_mapDigests (f : String → String) (store : Store) :
    (mapDigests f store).users.map toView = store.users.map toView := by
  unfold mapDigests
  simp only [List.map_map]
  congr 1

/-- The dashboard query is independent of digests. -/
theorem fetchAll_mapDigests (f : String → String) (store : Store)
    (sb so : String) :
    fetchAllUsersFromDB (mapDigests f store) sb so =
      fetchAllUsersFromDB store sb so := by
  unfold fetchAllUsersFromDB
  rw [mapToView_mapDigests]

/-- The guard's user load is independent of digests (it selects only
`id, email, status`). -/
theorem getUserForAuth_mapDigests (f : String → String) (uid : Nat)
    (store : Store) :
    getUserForAuth uid (mapDigests f store) = getUserForAuth uid store := by
  unfold getUserForAuth mapDigests
  rw [List.find?_map]
  have hp : ((fun u => decide (u.id = uid)) ∘ fun (u : User) =>
      { u with password_hash := f u.password_hash }) =
      (fun (u : User) => decide (u.id = uid)) := by
    funext u
    rfl
  rw [hp]
  cases store.users.find? (fun u => decide (u.id = uid)) with
  | none => rfl
  | some u => rfl

/-- Email lookup commutes with digest renaming. -/
theorem findUserByEmail_mapDigests (f : String → String) (e : String)
    (store : Store) :
    findUserByEmailInDB e (mapDigests f store) =
      (findUserByEmailInDB e store).map
        (fun u => { u with password_hash := f u.password_hash }) := by
  unfold findUserByEmailInDB mapDigests
  rw [List.find?_map]
  have hp : ((fun u => decide (u.email = e)) ∘ fun (u : User) =>
      { u with password_hash := f u.password_hash }) =
      (fun (u : User) => decide (u.email = e)) := by
    funext u
    rfl
  rw [hp]

/-- Email availability is independent of digests. -/
theorem emailTaken_mapDigests (f : String → String) (e : String)
    (store : Store) :
    emailTaken e (mapDigests f store) = emailTaken e store := by
  unfold emailTaken mapDigests
  rw [List.any_map]
  have hp : ((fun u => decide (u.email = e)) ∘ fun (u : User) =>
      { u with password_hash := f u.password_hash }) =
      (fun (u : User) => decide (u.email = e)) := by
    funext u
    rfl
  rw [hp]

/-- Matched-row counts of the bulk operations are independent of digests. -/
theorem bulkFilter_mapDigests (f : String → String) (ids : List Int)
    (store : Store) :
    ((mapDigests f store).users.filter (fun u => (u.id : Int) ∈ ids)).length =
      (store.users.filter (fun u => (u.id : Int) ∈ ids)).length := by
  unfold mapDigests
  simp only [List.filter_map, List.length_map]
  have hp : ((fun u => decide ((u.id : Int) ∈ ids)) ∘ fun (u : User) =>
      { u with password_hash := f u.password_hash }) =
      (fun (u : User) => decide ((u.id : Int) ∈ ids)) := by
    funext u
    rfl
  rw [hp]

/-- The status write commutes with digest renaming. -/
theorem updateStore_mapDigests (f : String → String) (ids : List Int)
    (st : String) (store : Store) :
    (updateStatusForMultipleUsersInDB ids st (mapDigests f store)).2 =
      mapDigests f (updateStatusForMultipleUsersInDB ids st store).2 := by
  unfold updateStatusForMultipleUsersInDB mapDigests
  simp only [List.map_map]
  congr 1
  apply List.map_congr_left
  intro u hu
  simp only [Function.comp_apply]
  by_cases h : (u.id : Int) ∈ ids <;> simp [h]

/-- The delete write commutes with digest renaming. -/
theorem deleteStore_mapDigests (f : String → String) (ids : List Int)
    (store : Store) :
    (deleteMultipleUsersFromDB ids (mapDigests f store)).2 =
      mapDigests f (deleteMultipleUsersFromDB ids store).2 := by
  unfold deleteMultipleUsersFromDB mapDigests
  simp only [List.filter_map]
  have hp : ((fun u => decide ((u.id : Int) ∉ ids)) ∘ fun (u : User) =>
      { u with password_hash := f u.password_hash }) =
      (fun (u : User) => decide ((u.id : Int) ∉ ids)) := by
    funext u
    rfl
  rw [hp]

/-- The guard's entire outcome is independent of digests. -/
theorem protect_mapDigests (f : String → String) (env : String → VerifyOutcome)
    (hdr : Option String) (store : Store) :
    protect env hdr (mapDigests f store) = protect env hdr store := by
  unfold protect
  simp only [getUserForAuth_mapDigests]

/-- The dashboard response is independent of digests. -/
theorem getAllUsers_mapDigests (f : String → String) (sb so : Option String)
    (store : Store) :
    getAllUsers sb so (mapDigests f store) = getAllUsers sb so store := by
  unfold getAllUsers
  rw [fetchAll_mapDigests]

/-- The bulk status update's response is independent of digests and its
store write commutes with digest renaming. -/
theorem updateStatus_resp_mapDigests (f : String → String)
    (ids : Option (List String)) (status : Option String) (store : Store) :
    bulkResponse (updateMultipleUsersStatus ids status (mapDigests f store)) =
      bulkResponse (updateMultipleUsersStatus ids status store) ∧
    (updateMultipleUsersStatus ids status (mapDigests f store)).store =
      mapDigests f (updateMultipleUsersStatus ids status store).store := by
  have hcnt : ∀ (vids : List Int) (st : String),
      (updateStatusForMultipleUsersInDB vids st (mapDigests f store)).1 =
        (updateStatusForMultipleUsersInDB vids st store).1 := by
    intro vids st
    rw [updateStatus_fst, updateStatus_fst]
    exact bulkFilter_mapDigests f vids store
  unfold updateMultipleUsersStatus
  cases ids with
  | none => exact ⟨rfl, rfl⟩
  | some l =>
    dsimp only
    by_cases h1 : l = []
    · rw [if_pos h1, if_pos h1]
      exact ⟨rfl, rfl⟩
    rw [if_neg h1, if_neg h1]
    by_cases h2 : (isTruthy status ∧ jsToLower (status.getD "") ∈ ["active", "blocked"])
    · rw [if_neg (not_not_intro h2), if_neg (not_not_intro h2)]
      by_cases h3 : validIdsOf l = []
      · rw [if_pos h3, if_pos h3]
        exact ⟨rfl, rfl⟩
      rw [if_neg h3, if_neg h3]
      simp only [hcnt]
      by_cases h4 : (updateStatusForMultipleUsersInDB (validIdsOf l)
          (jsToLower (status.getD "")) store).1 = 0
      · rw [if_pos h4, if_pos h4]
        exact ⟨rfl, updateStore_mapDigests f _ _ store⟩
      · rw [if_neg h4, if_neg h4]
        exact ⟨rfl, updateStore_mapDigests f _ _ store⟩
    · rw [if_pos h2, if_pos h2]
      exact ⟨rfl, rfl⟩

/-- The bulk delete's response is independent of digests and its store
write commutes with digest renaming. -/
theorem delete_resp_mapDigests (f : String → String)
    (ids : Option (List String)) (store : Store) :
    bulkResponse (deleteMultipleUsers ids (mapDigests f store)) =
      bulkResponse (deleteMultipleUsers ids store) ∧
    (deleteMultipleUsers ids (mapDigests f store)).store =
      mapDigests f (deleteMultipleUsers ids store).store := by
  have hcnt : ∀ vids : List Int,
      (deleteMultipleUsersFromDB vids (mapDigests f store)).1 =
        (deleteMultipleUsersFromDB vids store).1 := by
    intro vids
    rw [delete_fst, delete_fst]
    exact bulkFilter_mapDigests f vids store
  unfold deleteMultipleUsers
  cases ids with
  | none => exact ⟨rfl, rfl⟩
  | some l =>
    dsimp only
    by_cases h1 : l = []
    · rw [if_pos h1, if_pos h1]
      exact ⟨rfl, rfl⟩
    rw [if_neg h1, if_neg h1]
    by_cases h3 : validIdsOf l = []
    · rw [if_pos h3, if_pos h3]
      exact ⟨rfl, rfl⟩
    rw [if_neg h3, if_neg h3]
    simp only [hcnt]
    by_cases h4 : (deleteMultipleUsersFromDB (validIdsOf l) store).1 = 0
    · rw [if_pos h4, if_pos h4]
      exact ⟨rfl, rfl⟩
    · rw [if_neg h4, if_neg h4]
      exact ⟨rfl, deleteStore_mapDigests f _ store⟩

/-- The registration response is independent of digests. -/
theorem register_resp_mapDigests (f : String → String) (body : RegisterBody)
    (now ttl : Nat) (store : Store) :
    registerResponse (registerUser body now ttl (mapDigests f store)) =
      registerResponse (registerUser body now ttl store) := by
  unfold registerUser
  cases hfm : firstMissing
      [("first_name", body.first_name), ("last_name", body.last_name),
        ("email", body.email), ("password", body.password)] with
  | some fld => rfl
  | none =>
    dsimp only
    by_cases hv : validEmail (body.email.getD "")
    · rw [if_neg (not_not_intro hv), if_neg (not_not_intro hv),
        emailTaken_mapDigests]
      by_cases ht : emailTaken (body.email.getD "") store
      · rw [if_pos ht, if_pos ht]
        rfl
      · rw [if_neg ht, if_neg ht]
        rfl
    · rw [if_pos hv, if_pos hv]
      rfl

/-- The login response is independent of digests, for any renaming that
preserves comparison outcomes (as an opaque digest renaming does). -/
theorem login_resp_mapDigests (f : String → String)
    (hf : ∀ p h, bcryptCompare p (f h) = bcryptCompare p h)
    (body : LoginBody) (now ttl : Nat) (store : Store) :
    loginResponse (loginUser body now ttl (mapDigests f store)) =
      loginResponse (loginUser body now ttl store) := by
  unfold loginUser
  simp only [findUserByEmail_mapDigests]
  by_cases h1 : (isTruthy body.email ∧ isTruthy body.password)
  · rw [if_neg (not_not_intro h1), if_neg (not_not_intro h1)]
    by_cases h2 : validEmail (body.email.getD "")
    · rw [if_neg (not_not_intro h2), if_neg (not_not_intro h2)]
      cases hfind : findUserByEmailInDB (body.email.getD "") store with
      | none => rfl
      | some u =>
        simp only [Option.map_some']
        simp only [hf]
        by_cases hc : bcryptCompare (body.password.getD "") u.password_hash
        · simp only [hc, not_true_eq_false, if_false, ite_false]
          by_cases hb : u.status = "blocked" <;> simp [hb, loginResponse]
        · simp [hc, loginResponse]
    · rw [if_pos h2, if_pos h2]
      rfl
  · rw [if_pos h1, if_pos h1]
    rfl

/-- The guard's request-context projection exposes only id, email and
status of a stored row. -/
theorem getUserForAuth_projection (uid : Nat) (store : Store) (au : AuthUser)
    (h : getUserForAuth uid store = some au) :
    ∃ u ∈ store.users, au = ⟨u.id, u.email, u.status⟩ := by
  unfold getUserForAuth at h
  cases hfind : store.users.find? (fun u => u.id = uid) with
  | none =>
    rw [hfind] at h
    exact absurd h (by simp)
  | some u =>
    rw [hfind, Option.map_some'] at h
    exact ⟨u, List.mem_of_find?_eq_some hfind, (Option.some_inj.mp h).symm⟩

/-- Every row of the dashboard response is the non-digest projection of a
stored row. -/
theorem getAllUsers_projection (sb so : Option String) (store : Store)
    (v : UserView) (h : v ∈ (getAllUsers sb so store).users) :
    ∃ u ∈ store.users, v = toView u := by
  have h2 : v ∈ fetchAllUsersFromDB store (jsOrStr sb "last_login_date")
      (jsOrStr so "DESC") := h
  have hperm := List.mergeSort_perm (store.users.map toView)
    (rowLe (effectiveSortBy (jsOrStr sb "last_login_date"))
      (effectiveSortOrder (jsOrStr so "DESC")))
  have hv : v ∈ store.users.map toView := hperm.mem_iff.mp h2
  rcases List.mem_map.mp hv with ⟨u, hu, he⟩
  exact ⟨u, hu, he.symm⟩

/-- C8: digest confidentiality. Every response is invariant under an
arbitrary renaming of the stored digests — the dashboard and the guard
entirely, the bulk operations and registration in all observable response
fields (with the store change commuting with the renaming), and login in
all observable response fields for any renaming preserving the comparison
capability's outcomes — so no response can carry a digest; moreover the
guard's and the dashboard's user projections are exactly the non-digest
column projections of stored rows. -/
theorem C8_digest_confidentiality (f : String → String) (store : Store) :
    (∀ sb so : Option String,
      getAllUsers sb so (mapDigests f store) = getAllUsers sb so store) ∧
    (∀ (env : String → VerifyOutcome) (hdr : Option String),
      protect env hdr (mapDigests f store) = protect env hdr store) ∧
    (∀ (ids : Option (List String)) (status : Option String),
      bulkResponse (updateMultipleUsersStatus ids status (mapDigests f store)) =
        bulkResponse (updateMultipleUsersStatus ids status store) ∧
      (updateMultipleUsersStatus ids status (mapDigests f store)).store =
        mapDigests f (updateMultipleUsersStatus ids status store).store) ∧
    (∀ ids : Option (List String),
      bulkResponse (deleteMultipleUsers ids (mapDigests f store)) =
        bulkResponse (deleteMultipleUsers ids store) ∧
      (deleteMultipleUsers ids (mapDigests f store)).store =
        mapDigests f (deleteMultipleUsers ids store).store) ∧
    (∀ (body : RegisterBody) (now ttl : Nat),
      registerResponse (registerUser body now ttl (mapDigests f store)) =
        registerResponse (registerUser body now ttl store)) ∧
    ((∀ p h, bcryptCompare p (f h) = bcryptCompare p h) →
      ∀ (body : LoginBody) (now ttl : Nat),
      loginResponse (loginUser body now ttl (mapDigests f store)) =
        loginResponse (loginUser body now ttl store)) ∧
    (∀ (uid : Nat) (au : AuthUser), getUserForAuth uid store = some au →
      ∃ u ∈ store.users, au = ⟨u.id, u.email, u.status⟩) ∧
    (∀ (sb so : Option String) (v : UserView),
      v ∈ (getAllUsers sb so store).users →
      ∃ u ∈ store.users, v = toView u) := by
  exact ⟨fun sb so => getAllUsers_mapDigests f sb so store,
    fun env hdr => protect_mapDigests f env hdr store,
    fun ids status => updateStatus_resp_mapDigests f ids status store,
    fun ids => delete_resp_mapDigests f ids store,
    fun body now ttl => register_resp_mapDigests f body now ttl store,
    fun hf body now ttl => login_resp_mapDigests f hf body now ttl store,
    fun uid au h => getUserForAuth_projection uid store au h,
    fun sb so v h => getAllUsers_projection sb so store v h⟩

/-- Witness for C8 at the identity renaming on the demo store. -/
theorem C8_witness :
    getAllUsers none none (mapDigests (fun s => s) demoStore) =
      getAllUsers none none demoStore ∧
    loginResponse (loginUser ⟨some "a@b.com", some "pw"⟩ 999 600
        (mapDigests (fun s => s) demoStore)) =
      loginResponse (loginUser ⟨some "a@b.com", some "pw"⟩ 999 600 demoStore) ∧
    (∃ u ∈ demoStore.users,
      (⟨1, "a@b.com", "active"⟩ : AuthUser) = ⟨u.id, u.email, u.status⟩) := by
  refine ⟨?_, ?_, ?_⟩
  · exact (C8_digest_confidentiality (fun s => s) demoStore).1 none none
  · exact (C8_digest_confidentiality (fun s => s) demoStore).2.2.2.2.2.1
      (fun p h => rfl) ⟨some "a@b.com", some "pw"⟩ 999 600
  · exact (C8_digest_confidentiality (fun s => s) demoStore).2.2.2.2.2.2.1 1
      ⟨1, "a@b.com", "active"⟩ (by decide)

end TaskApp
